import Mathlib

/-!
Verification of the post-build orchestration layer of the docker build backend
(`api/server/backend/build/backend.go`): the `Backend.Build` pipeline and its
helpers `squashBuild` and `Backend.pushImage`.

The Go code is shallowly embedded as pure Lean functions.  External
collaborators (the build engine, the image component, reference parsing and
registry resolution) are oracles: fields of an `Env` record holding arbitrary
pure functions.  Each orchestration function additionally returns the list of
calls it makes to the collaborators (`Event`s), so that claims of the form
"tag/push is (not) invoked, with these arguments" are statable.  Go errors are
modelled by `GoError` (a leaf message or a wrap with context, as produced by
`errors.Wrap`); a Go `error` result is `Option GoError` (`none` = nil) and a
Go `(T, error)` pair with the usual exclusive use is `Except GoError T`.
The `context.Context` argument and the progress writers are threaded through
the Go code purely for display and cancellation and carry no data affecting the
returned values; they are omitted from the embedding.
-/

namespace DockerBuild

/-- Go error values: a leaf message, or an error wrapped with a context string
as produced by `errors.Wrap(err, ctx)`. -/
inductive GoError where
  | msg (s : String)
  | wrap (ctx : String) (cause : GoError)
deriving DecidableEq, Repr

/-- Credential bundle of `types.AuthConfig`; only identity matters here, the
zero value (all fields empty) is the "absent credential". -/
structure AuthConfig where
  Username : String := ""
  Password : String := ""
deriving DecidableEq, Repr

/-- A parsed, normalized named reference (`reference.Named`); `str` is its full
string form, what `ref.String()` returns. -/
structure NamedRef where
  str : String
deriving DecidableEq, Repr

/-- Repository information returned by `registry.Service.ResolveRepository`;
`Index` identifies the registry index used as the auth-lookup key. -/
structure RepoInfo where
  Index : String
deriving DecidableEq, Repr

/-- The base image recorded in a build result (`build.FromImage`), exposing its
image identifier via `ImageID()`. -/
structure BaseImage where
  ImageID : String
deriving DecidableEq, Repr

/-- Result of the external build engine (`builder.Result`): the built image
identifier and the optional base image. -/
structure BuilderResult where
  ImageID : String
  FromImage : Option BaseImage
deriving DecidableEq, Repr

/-- The build options relevant to the orchestrator: configured tag references,
the optional push-as reference, the squash flag and the per-registry auth map
(modelled as an association list keyed by registry index). -/
structure BuildOptions where
  Tags : List String
  PushAs : String
  Squash : Bool
  AuthConfigs : List (String × AuthConfig)
deriving DecidableEq, Repr

/-- The build configuration handed to `Backend.Build` (`backend.BuildConfig`);
the progress writer is display-only and omitted. -/
structure BuildConfig where
  Options : BuildOptions
deriving DecidableEq, Repr

/-- One call made by the orchestrator to a collaborator, with the arguments the
source passes.  `successMessage id` records the identifier whose truncated form
is printed in the "Successfully built" line.  `pushImage` records the four
value-carrying arguments of `ImageComponent.PushImage`. -/
inductive Event where
  | newTagger (refs : List String)
  | engineBuild
  | squashImage (fromID toID : String)
  | successMessage (imageID : String)
  | tagImages (imageID : String)
  | pushImage (image tag : String) (metaHeaders : List (String × List String)) (auth : AuthConfig)
deriving DecidableEq, Repr

/-- Whether an event is a tag application. -/
def Event.isTagCall : Event → Bool
  | Event.tagImages _ => true
  | _ => false

/-- Whether an event is a push delegation. -/
def Event.isPushCall : Event → Bool
  | Event.pushImage _ _ _ _ => true
  | _ => false

/-- Whether an event is a squash delegation. -/
def Event.isSquashCall : Event → Bool
  | Event.squashImage _ _ => true
  | _ => false

/-- Whether an event is the build-engine invocation. -/
def Event.isEngineCall : Event → Bool
  | Event.engineBuild => true
  | _ => false

/-- Whether an event is the success-message emission. -/
def Event.isSuccessMsg : Event → Bool
  | Event.successMessage _ => true
  | _ => false

/-- Oracle for the `ImageComponent` capability interface: squash, tag and push,
each an arbitrary pure outcome function.  `PushImage` drops the context and
progress-output arguments (display/cancellation only). -/
structure ImageComponent where
  SquashImage : String → String → Except GoError String
  TagImageWithReference : String → NamedRef → Option GoError
  PushImage : String → String → List (String × List String) → AuthConfig → Option GoError

/-- Oracle for the registry service. -/
structure RegistryService where
  ResolveRepository : NamedRef → Except GoError RepoInfo

/-- The environment of one `Backend`: the reference parser
(`reference.ParseNormalizedNamed`), the external build engine
(`b.manager.Build`, context dropped), the image component and the registry
service. -/
structure Env where
  parseNormalizedNamed : String → Except GoError NamedRef
  managerBuild : BuildConfig → Except GoError BuilderResult
  imageComponent : ImageComponent
  registryService : RegistryService

/-- Modelled from the spec: `registry.ResolveAuthConfig` is outside this unit
(only its call site is in the source).  Per the spec it is a pure function that
selects the credential matching the repository's registry index from the
per-registry map and returns a zero-value credential on a miss; it never
fails. -/
def ResolveAuthConfig (authConfigs : List (String × AuthConfig)) (index : String) : AuthConfig :=
  match authConfigs.lookup index with
  | some a => a
  | none => {}

/-- A constructed tagger: the parsed references it will apply. -/
structure Tagger where
  repoAndTags : List NamedRef
deriving DecidableEq, Repr

/-- Parse a list of reference strings in order, stopping at the first parse
error. -/
def parseAll (parse : String → Except GoError NamedRef) :
    List String → Except GoError (List NamedRef)
  | [] => Except.ok []
  | a :: as =>
    match parse a with
    | Except.error e => Except.error e
    | Except.ok ref =>
      match parseAll parse as with
      | Except.error e => Except.error e
      | Except.ok refs => Except.ok (ref :: refs)

/-- Modelled from the spec: `NewTagger` lives in a source file of this package
that is absent from the unit.  Per the spec it parses every supplied reference
string and fails, propagating the parse error, when any reference is invalid;
otherwise it holds the parsed references in order. -/
def NewTagger (parse : String → Except GoError NamedRef) (names : List String) :
    Except GoError Tagger :=
  match parseAll parse names with
  | Except.error e => Except.error e
  | Except.ok refs => Except.ok ⟨refs⟩

/-- Modelled from the spec: `Tagger.TagImages` applies every held reference to
the given image identifier via the image component's tag operation, in order,
and reports the first error encountered. -/
def Tagger.TagImages (t : Tagger) (ic : ImageComponent) (imageID : String) : Option GoError :=
  (t.repoAndTags.filterMap (fun r => ic.TagImageWithReference imageID r)).head?

/-- The base image identifier computed by `squashBuild`: the local `fromID`,
left empty when the build result records no base image. -/
def fromIDof (build : BuilderResult) : String :=
  match build.FromImage with
  | some base => base.ImageID
  | none => ""

/-- Embedding of `squashBuild(build, imageComponent)`: delegates to
`SquashImage(build.ImageID, fromID)` and wraps a failure with the context
"error squashing image".  The second component records the call made. -/
def squashBuild (build : BuilderResult) (ic : ImageComponent) :
    Except GoError String × List Event :=
  (match ic.SquashImage build.ImageID (fromIDof build) with
   | Except.error err => Except.error (GoError.wrap "error squashing image" err)
   | Except.ok imageID => Except.ok imageID,
   [Event.squashImage build.ImageID (fromIDof build)])

/-- Embedding of `Backend.pushImage(ctx, pushAs, authConfigs, output)`: parses
the reference, resolves the repository, resolves the auth credential and
delegates to `PushImage(ref.String(), "", map[string][]string{}, authConfig)`.
The second component records the delegation when it happens. -/
def Backend.pushImage (env : Env) (pushAs : String)
    (authConfigs : List (String × AuthConfig)) : Option GoError × List Event :=
  match env.parseNormalizedNamed pushAs with
  | Except.error err => (some err, [])
  | Except.ok ref =>
    match env.registryService.ResolveRepository ref with
    | Except.error err => (some err, [])
    | Except.ok repoInfo =>
      (env.imageComponent.PushImage ref.str "" [] (ResolveAuthConfig authConfigs repoInfo.Index),
       [Event.pushImage ref.str "" [] (ResolveAuthConfig authConfigs repoInfo.Index)])

/-- The effective tag set handed to the tagger: the configured tags with the
push-as reference appended when it is non-empty (source lines building the
local `tags` slice). -/
def effectiveTags (options : BuildOptions) : List String :=
  if options.PushAs != "" then options.Tags ++ [options.PushAs] else options.Tags

/-- Outcome of one `Backend.Build` call: the returned identifier and error, the
collaborator calls made, and the configuration value as it stands at return
(recorded to state frame claims; the source never assigns to it). -/
structure BuildOutcome where
  imageID : String
  err : Option GoError
  events : List Event
  finalConfig : BuildConfig
deriving DecidableEq, Repr

/-- Embedding of `Backend.Build(ctx, config)`, mirroring the source statement
by statement: build the effective tag set, construct the tagger (failure is
returned at once), invoke the build engine (failure is returned at once),
optionally squash replacing the working identifier (failure is returned at
once, wrapped), emit the success message, tag the working identifier capturing
the error, and, when a push-as reference is configured, push and return the
working identifier with the push outcome overwriting the tag outcome;
otherwise return the working identifier with the tag outcome. -/
def Backend.Build (env : Env) (config : BuildConfig) : BuildOutcome :=
  let options := config.Options
  let tags := effectiveTags options
  match NewTagger env.parseNormalizedNamed tags with
  | Except.error err =>
      { imageID := "", err := some err, events := [Event.newTagger tags], finalConfig := config }
  | Except.ok tagger =>
    match env.managerBuild config with
    | Except.error err =>
        { imageID := "", err := some err,
          events := [Event.newTagger tags, Event.engineBuild], finalConfig := config }
    | Except.ok build =>
      let sqres := if options.Squash then squashBuild build env.imageComponent
                   else (Except.ok build.ImageID, [])
      match sqres.fst with
      | Except.error err =>
          { imageID := "", err := some err,
            events := [Event.newTagger tags, Event.engineBuild] ++ sqres.snd,
            finalConfig := config }
      | Except.ok imageID =>
        let tagErr := Tagger.TagImages tagger env.imageComponent imageID
        let baseEvents := [Event.newTagger tags, Event.engineBuild] ++ sqres.snd
            ++ [Event.successMessage imageID, Event.tagImages imageID]
        if options.PushAs != "" then
          let pres := Backend.pushImage env options.PushAs options.AuthConfigs
          { imageID := imageID, err := pres.fst, events := baseEvents ++ pres.snd,
            finalConfig := config }
        else
          { imageID := imageID, err := tagErr, events := baseEvents, finalConfig := config }

/-! Concrete fixtures used by witnesses and counterexamples. -/

/-- Reference parser fixture that accepts every string verbatim. -/
def idParse (s : String) : Except GoError NamedRef := Except.ok ⟨s⟩

/-- Image component fixture: squash returns "sq456", tagging fails with a fixed
error, push succeeds. -/
def tagFailComponent : ImageComponent where
  SquashImage := fun _ _ => Except.ok "sq456"
  TagImageWithReference := fun _ _ => some (GoError.msg "tagfail")
  PushImage := fun _ _ _ _ => none

/-- Registry service fixture resolving every reference to index "idx". -/
def testRegistry : RegistryService where
  ResolveRepository := fun _ => Except.ok ⟨"idx"⟩

/-- Environment fixture: parsing always succeeds, the engine returns image
"abc123" with no base image, tagging fails, push succeeds. -/
def tagFailPushOkEnv : Env where
  parseNormalizedNamed := idParse
  managerBuild := fun _ => Except.ok ⟨"abc123", none⟩
  imageComponent := tagFailComponent
  registryService := testRegistry

/-- Configuration fixture: one tag, push-as configured, no squash. -/
def pushConfig : BuildConfig := ⟨⟨["a"], "p", false, []⟩⟩

/-- Image component fixture: tagging succeeds, push fails with a fixed error. -/
def pushFailComponent : ImageComponent where
  SquashImage := fun _ _ => Except.ok "sq456"
  TagImageWithReference := fun _ _ => none
  PushImage := fun _ _ _ _ => some (GoError.msg "pushfail")

/-- Environment fixture where push fails. -/
def pushFailEnv : Env :=
  { tagFailPushOkEnv with imageComponent := pushFailComponent }

/-- C1: with a non-empty push-as reference, once the tagger was constructed,
the build engine succeeded and (if enabled) squash succeeded, Build returns
the working identifier paired with exactly the push helper's outcome, whatever
the tag outcome was; in particular the returned error is nil whenever push
succeeds. -/
theorem build_push_outcome_replaces_tag
    (env : Env) (config : BuildConfig) (tagger : Tagger) (build : BuilderResult)
    (finalID : String)
    (hP : config.Options.PushAs ≠ "")
    (hNT : NewTagger env.parseNormalizedNamed (effectiveTags config.Options) = Except.ok tagger)
    (hB : env.managerBuild config = Except.ok build)
    (hSq : (if config.Options.Squash then squashBuild build env.imageComponent
            else (Except.ok build.ImageID, [])).fst = Except.ok finalID) :
    (Backend.Build env config).imageID = finalID ∧
    (Backend.Build env config).err =
      (Backend.pushImage env config.Options.PushAs config.Options.AuthConfigs).fst ∧
    ((Backend.pushImage env config.Options.PushAs config.Options.AuthConfigs).fst = none →
      (Backend.Build env config).err = none) := by
  have hPb : (config.Options.PushAs != "") = true := by simpa using hP
  simp only [Backend.Build, hNT, hB, hSq, hPb, if_true]
  exact ⟨trivial, trivial, fun h => h⟩

/-- Witness for C1 at a concrete run where tagging fails and push succeeds. -/
theorem build_push_outcome_replaces_tag_witness :
    (Backend.Build tagFailPushOkEnv pushConfig).imageID = "abc123" ∧
    (Backend.Build tagFailPushOkEnv pushConfig).err =
      (Backend.pushImage tagFailPushOkEnv "p" []).fst ∧
    ((Backend.pushImage tagFailPushOkEnv "p" []).fst = none →
      (Backend.Build tagFailPushOkEnv pushConfig).err = none) :=
  build_push_outcome_replaces_tag tagFailPushOkEnv pushConfig ⟨[⟨"a"⟩, ⟨"p"⟩]⟩
    ⟨"abc123", none⟩ "abc123" (by decide) rfl rfl rfl

/-- C2 (counterexample): at a concrete run where push succeeds and tagging had
failed, the error returned by Build is nil, not the tag error, refuting the
claim that the tag error is returned when push succeeds but tagging failed. -/
theorem tag_error_discarded_when_push_succeeds_cex :
    (Backend.pushImage tagFailPushOkEnv "p" []).fst = none ∧
    Tagger.TagImages ⟨[⟨"a"⟩, ⟨"p"⟩]⟩ tagFailPushOkEnv.imageComponent "abc123" =
      some (GoError.msg "tagfail") ∧
    (Backend.Build tagFailPushOkEnv pushConfig).err ≠ some (GoError.msg "tagfail") := by
  refine ⟨rfl, rfl, ?_⟩
  intro h
  exact Option.noConfusion h

/-- C2 (amended): with a non-empty push-as reference, once the pipeline reaches
the push step, the error returned by Build is the push error when push fails,
and is nil when push succeeds — even when tagging had failed; the push outcome
always replaces the tag outcome. -/
theorem build_error_is_push_outcome
    (env : Env) (config : BuildConfig) (tagger : Tagger) (build : BuilderResult)
    (finalID : String)
    (hP : config.Options.PushAs ≠ "")
    (hNT : NewTagger env.parseNormalizedNamed (effectiveTags config.Options) = Except.ok tagger)
    (hB : env.managerBuild config = Except.ok build)
    (hSq : (if config.Options.Squash then squashBuild build env.imageComponent
            else (Except.ok build.ImageID, [])).fst = Except.ok finalID) :
    (∀ p, (Backend.pushImage env config.Options.PushAs config.Options.AuthConfigs).fst = some p →
      (Backend.Build env config).err = some p) ∧
    ((Backend.pushImage env config.Options.PushAs config.Options.AuthConfigs).fst = none →
      (Backend.Build env config).err = none) := by
  have hPb : (config.Options.PushAs != "") = true := by simpa using hP
  simp only [Backend.Build, hNT, hB, hSq, hPb, if_true]
  exact ⟨fun p h => h, fun h => h⟩

/-- Witness for the amended C2 at a concrete run where push fails. -/
theorem build_error_is_push_outcome_witness :
    (∀ p, (Backend.pushImage pushFailEnv "p" []).fst = some p →
      (Backend.Build pushFailEnv pushConfig).err = some p) ∧
    ((Backend.pushImage pushFailEnv "p" []).fst = none →
      (Backend.Build pushFailEnv pushConfig).err = none) :=
  build_error_is_push_outcome pushFailEnv pushConfig ⟨[⟨"a"⟩, ⟨"p"⟩]⟩
    ⟨"abc123", none⟩ "abc123" (by decide) rfl rfl rfl

/-- Image component fixture for the squash path: squash returns "sq456",
tagging and push succeed. -/
def squashOkComponent : ImageComponent where
  SquashImage := fun _ _ => Except.ok "sq456"
  TagImageWithReference := fun _ _ => none
  PushImage := fun _ _ _ _ => none

/-- Environment fixture for the squash path: the engine returns "abc123" with
base image "base1". -/
def squashEnv : Env where
  parseNormalizedNamed := idParse
  managerBuild := fun _ => Except.ok ⟨"abc123", some ⟨"base1"⟩⟩
  imageComponent := squashOkComponent
  registryService := testRegistry

/-- Configuration fixture with squashing enabled and no push-as reference. -/
def squashConfig : BuildConfig := ⟨⟨["a"], "", true, []⟩⟩

/-- Environment fixture where squashing fails. -/
def squashFailEnv : Env :=
  { squashEnv with imageComponent :=
    { squashOkComponent with SquashImage := fun _ _ => Except.error (GoError.msg "sqfail") } }

/-- Environment fixture where the build engine fails. -/
def engineFailEnv : Env :=
  { tagFailPushOkEnv with managerBuild := fun _ => Except.error (GoError.msg "enginefail") }

/-- Every event recorded by the push helper is a push delegation. -/
lemma pushImage_events_are_push (env : Env) (p : String) (a : List (String × AuthConfig)) :
    ∀ e ∈ (Backend.pushImage env p a).snd, e.isPushCall = true := by
  intro e he
  unfold Backend.pushImage at he
  cases hp : env.parseNormalizedNamed p with
  | error err => simp only [hp] at he; simp at he
  | ok ref =>
    simp only [hp] at he
    cases hr : env.registryService.ResolveRepository ref with
    | error err => simp only [hr] at he; simp at he
    | ok repoInfo =>
      simp only [hr, List.mem_singleton] at he
      subst he
      rfl

/-- C3: with squashing enabled, when the build engine and the squash operation
both succeed, the identifier Build returns, the identifier named by the
success message and the identifier handed to tagging are all the squash
output, and no success message or tag call names any other identifier. -/
theorem build_squash_id_everywhere
    (env : Env) (config : BuildConfig) (tagger : Tagger) (build : BuilderResult)
    (sqID : String)
    (hNT : NewTagger env.parseNormalizedNamed (effectiveTags config.Options) = Except.ok tagger)
    (hB : env.managerBuild config = Except.ok build)
    (hSquash : config.Options.Squash = true)
    (hIC : env.imageComponent.SquashImage build.ImageID (fromIDof build) = Except.ok sqID) :
    (Backend.Build env config).imageID = sqID ∧
    Event.successMessage sqID ∈ (Backend.Build env config).events ∧
    Event.tagImages sqID ∈ (Backend.Build env config).events ∧
    (∀ i, Event.successMessage i ∈ (Backend.Build env config).events → i = sqID) ∧
    (∀ i, Event.tagImages i ∈ (Backend.Build env config).events → i = sqID) := by
  simp only [Backend.Build, squashBuild, hNT, hB, hSquash, if_true, hIC]
  by_cases hp : (config.Options.PushAs != "") = true
  · simp only [hp, if_true]
    refine ⟨trivial, by simp, by simp, ?_, ?_⟩
    · intro i hi
      simp only [List.cons_append, List.nil_append, List.mem_append, List.mem_cons,
        List.not_mem_nil, or_false] at hi
      rcases hi with h | h | h | h | h | h
      · exact absurd h (by simp)
      · exact absurd h (by simp)
      · exact absurd h (by simp)
      · exact (Event.successMessage.injEq _ _).mp h
      · exact absurd h (by simp)
      · have := pushImage_events_are_push env config.Options.PushAs config.Options.AuthConfigs
          (Event.successMessage i) h
        exact absurd this (by simp [Event.isPushCall])
    · intro i hi
      simp only [List.cons_append, List.nil_append, List.mem_append, List.mem_cons,
        List.not_mem_nil, or_false] at hi
      rcases hi with h | h | h | h | h | h
      · exact absurd h (by simp)
      · exact absurd h (by simp)
      · exact absurd h (by simp)
      · exact absurd h (by simp)
      · exact (Event.tagImages.injEq _ _).mp h
      · have := pushImage_events_are_push env config.Options.PushAs config.Options.AuthConfigs
          (Event.tagImages i) h
        exact absurd this (by simp [Event.isPushCall])
  · simp only [hp, Bool.false_eq_true, if_false]
    refine ⟨trivial, by simp, by simp, ?_, ?_⟩
    · intro i hi
      simp only [List.cons_append, List.nil_append, List.mem_append, List.mem_cons,
        List.not_mem_nil, or_false] at hi
      rcases hi with h | h | h | h | h
      · exact absurd h (by simp)
      · exact absurd h (by simp)
      · exact absurd h (by simp)
      · exact (Event.successMessage.injEq _ _).mp h
      · exact absurd h (by simp)
    · intro i hi
      simp only [List.cons_append, List.nil_append, List.mem_append, List.mem_cons,
        List.not_mem_nil, or_false] at hi
      rcases hi with h | h | h | h | h
      · exact absurd h (by simp)
      · exact absurd h (by simp)
      · exact absurd h (by simp)
      · exact absurd h (by simp)
      · exact (Event.tagImages.injEq _ _).mp h

/-- Witness for C3 at a concrete squash run. -/
theorem build_squash_id_everywhere_witness :
    (Backend.Build squashEnv squashConfig).imageID = "sq456" ∧
    Event.successMessage "sq456" ∈ (Backend.Build squashEnv squashConfig).events ∧
    Event.tagImages "sq456" ∈ (Backend.Build squashEnv squashConfig).events ∧
    (∀ i, Event.successMessage i ∈ (Backend.Build squashEnv squashConfig).events → i = "sq456") ∧
    (∀ i, Event.tagImages i ∈ (Backend.Build squashEnv squashConfig).events → i = "sq456") :=
  build_squash_id_everywhere squashEnv squashConfig ⟨[⟨"a"⟩]⟩
    ⟨"abc123", some ⟨"base1"⟩⟩ "sq456" rfl rfl rfl rfl

/-- C4: with squashing enabled, when the image component's squash operation
fails with cause C, Build returns the empty identifier with C wrapped under
"error squashing image", no tag or push call is made, and the base identifier
handed to the squash operation is empty exactly when the build result records
no base image, and the base image's identifier otherwise. -/
theorem build_squash_failure_fatal
    (env : Env) (config : BuildConfig) (tagger : Tagger) (build : BuilderResult)
    (C : GoError)
    (hNT : NewTagger env.parseNormalizedNamed (effectiveTags config.Options) = Except.ok tagger)
    (hB : env.managerBuild config = Except.ok build)
    (hSquash : config.Options.Squash = true)
    (hFail : env.imageComponent.SquashImage build.ImageID (fromIDof build) = Except.error C) :
    (Backend.Build env config).imageID = "" ∧
    (Backend.Build env config).err = some (GoError.wrap "error squashing image" C) ∧
    Event.squashImage build.ImageID (fromIDof build) ∈ (Backend.Build env config).events ∧
    (∀ e ∈ (Backend.Build env config).events, e.isTagCall = false ∧ e.isPushCall = false) ∧
    (build.FromImage = none → fromIDof build = "") ∧
    (∀ base, build.FromImage = some base → fromIDof build = base.ImageID) := by
  simp only [Backend.Build, squashBuild, hNT, hB, hSquash, if_true, hFail]
  refine ⟨trivial, trivial, by simp, ?_, ?_, ?_⟩
  · intro e he
    simp only [List.cons_append, List.nil_append, List.mem_cons, List.not_mem_nil,
      or_false] at he
    rcases he with h | h | h <;> subst h <;> exact ⟨rfl, rfl⟩
  · intro h; simp [fromIDof, h]
  · intro base h; simp [fromIDof, h]

/-- Witness for C4 at a concrete run where squashing fails. -/
theorem build_squash_failure_fatal_witness :
    (Backend.Build squashFailEnv squashConfig).imageID = "" ∧
    (Backend.Build squashFailEnv squashConfig).err =
      some (GoError.wrap "error squashing image" (GoError.msg "sqfail")) ∧
    Event.squashImage "abc123" (fromIDof ⟨"abc123", some ⟨"base1"⟩⟩) ∈
      (Backend.Build squashFailEnv squashConfig).events ∧
    (∀ e ∈ (Backend.Build squashFailEnv squashConfig).events,
      e.isTagCall = false ∧ e.isPushCall = false) ∧
    ((⟨"abc123", some ⟨"base1"⟩⟩ : BuilderResult).FromImage = none →
      fromIDof ⟨"abc123", some ⟨"base1"⟩⟩ = "") ∧
    (∀ base, (⟨"abc123", some ⟨"base1"⟩⟩ : BuilderResult).FromImage = some base →
      fromIDof ⟨"abc123", some ⟨"base1"⟩⟩ = base.ImageID) :=
  build_squash_failure_fatal squashFailEnv squashConfig ⟨[⟨"a"⟩]⟩
    ⟨"abc123", some ⟨"base1"⟩⟩ (GoError.msg "sqfail") rfl rfl rfl rfl

/-- When every name in the list parses successfully, tagger construction
succeeds. -/
lemma NewTagger_ok_of_all_valid (parse : String → Except GoError NamedRef)
    (names : List String) (h : ∀ r ∈ names, ∃ ref, parse r = Except.ok ref) :
    ∃ t, NewTagger parse names = Except.ok t := by
  suffices hm : ∃ l, parseAll parse names = Except.ok l by
    obtain ⟨l, hl⟩ := hm
    refine ⟨⟨l⟩, ?_⟩
    unfold NewTagger
    rw [hl]
  induction names with
  | nil => exact ⟨[], rfl⟩
  | cons a as ih =>
    obtain ⟨ref, hra⟩ := h a (List.mem_cons_self a as)
    obtain ⟨l, hl⟩ := ih (fun r hr => h r (List.mem_cons_of_mem a hr))
    refine ⟨ref :: l, ?_⟩
    unfold parseAll
    rw [hra, hl]

/-- C5: when every reference in the effective tag set is valid and the build
engine fails with error B, Build returns the empty identifier with exactly B,
and no squash, success message, tag or push call is made. -/
theorem build_engine_failure_fatal
    (env : Env) (config : BuildConfig) (B : GoError)
    (hv : ∀ r ∈ effectiveTags config.Options, ∃ ref, env.parseNormalizedNamed r = Except.ok ref)
    (hB : env.managerBuild config = Except.error B) :
    (Backend.Build env config).imageID = "" ∧
    (Backend.Build env config).err = some B ∧
    (∀ e ∈ (Backend.Build env config).events,
      e.isSquashCall = false ∧ e.isSuccessMsg = false ∧
      e.isTagCall = false ∧ e.isPushCall = false) := by
  obtain ⟨t, hNT⟩ := NewTagger_ok_of_all_valid env.parseNormalizedNamed
    (effectiveTags config.Options) hv
  simp only [Backend.Build, hNT, hB]
  refine ⟨trivial, trivial, ?_⟩
  intro e he
  simp only [List.mem_cons, List.not_mem_nil, or_false] at he
  rcases he with h | h <;> subst h <;> exact ⟨rfl, rfl, rfl, rfl⟩

/-- Witness for C5 at a concrete run where the engine fails. -/
theorem build_engine_failure_fatal_witness :
    (Backend.Build engineFailEnv pushConfig).imageID = "" ∧
    (Backend.Build engineFailEnv pushConfig).err = some (GoError.msg "enginefail") ∧
    (∀ e ∈ (Backend.Build engineFailEnv pushConfig).events,
      e.isSquashCall = false ∧ e.isSuccessMsg = false ∧
      e.isTagCall = false ∧ e.isPushCall = false) :=
  build_engine_failure_fatal engineFailEnv pushConfig (GoError.msg "enginefail")
    (fun r _ => ⟨⟨r⟩, rfl⟩) rfl

/-- Every event recorded by the squash step (squash when enabled, nothing
otherwise) is a squash delegation. -/
lemma squash_step_events (c : Bool) (build : BuilderResult) (ic : ImageComponent) :
    ∀ e ∈ (if c then squashBuild build ic else (Except.ok build.ImageID, [])).snd,
      e.isSquashCall = true := by
  cases c with
  | false => simp
  | true =>
    intro e he
    simp only [if_true, squashBuild, List.mem_singleton] at he
    subst he
    rfl

/-- The arguments of any push delegation recorded by the push helper: the full
string form of the parsed push-as reference, an empty explicit tag and an
empty extra-headers map. -/
lemma pushImage_event_args (env : Env) (p : String) (a : List (String × AuthConfig))
    (img tag : String) (mh : List (String × List String)) (au : AuthConfig)
    (h : Event.pushImage img tag mh au ∈ (Backend.pushImage env p a).snd) :
    ∃ ref, env.parseNormalizedNamed p = Except.ok ref ∧
      img = ref.str ∧ tag = "" ∧ mh = [] := by
  unfold Backend.pushImage at h
  cases hp : env.parseNormalizedNamed p with
  | error e => simp [hp] at h
  | ok ref =>
    simp only [hp] at h
    cases hr : env.registryService.ResolveRepository ref with
    | error e => simp [hr] at h
    | ok repoInfo =>
      simp only [hr, List.mem_singleton, Event.pushImage.injEq] at h
      exact ⟨ref, rfl, h.1, h.2.1, h.2.2.1⟩

/-- C6 (counterexample): at a concrete run, the `image` argument handed to the
push operation is the push-as reference string "p", which differs from the
final image identifier "abc123" returned by Build — the push operation is not
passed the image identifier. -/
theorem push_arg_not_final_id_cex :
    Event.pushImage "p" "" [] ⟨"", ""⟩ ∈ (Backend.Build tagFailPushOkEnv pushConfig).events ∧
    (Backend.Build tagFailPushOkEnv pushConfig).imageID = "abc123" ∧
    "p" ≠ "abc123" := by
  refine ⟨?_, rfl, by decide⟩
  simp [Backend.Build, Backend.pushImage, NewTagger, parseAll, effectiveTags,
    tagFailPushOkEnv, pushConfig, idParse, testRegistry, ResolveAuthConfig]

/-- C6 (amended): every tag call receives exactly the final working identifier
(the one Build returns, squashed when squashing occurred), while every push
delegation receives as its image argument the string form of the parsed
push-as reference, not the image identifier. -/
theorem build_tag_gets_final_id_push_gets_ref (env : Env) (config : BuildConfig) :
    (∀ i, Event.tagImages i ∈ (Backend.Build env config).events →
      i = (Backend.Build env config).imageID) ∧
    (∀ img tag mh au, Event.pushImage img tag mh au ∈ (Backend.Build env config).events →
      ∃ ref, env.parseNormalizedNamed config.Options.PushAs = Except.ok ref ∧
        img = ref.str) := by
  cases hNT : NewTagger env.parseNormalizedNamed (effectiveTags config.Options) with
  | error err =>
    simp only [Backend.Build, hNT]
    exact ⟨fun i hi => by simp at hi, fun img tag mh au h => by simp at h⟩
  | ok tagger =>
    cases hB : env.managerBuild config with
    | error err =>
      simp only [Backend.Build, hNT, hB]
      exact ⟨fun i hi => by simp at hi, fun img tag mh au h => by simp at h⟩
    | ok build =>
      cases hsq : (if config.Options.Squash then squashBuild build env.imageComponent
                   else (Except.ok build.ImageID, [])).fst with
      | error err =>
        simp only [Backend.Build, hNT, hB, hsq]
        constructor
        · intro i hi
          simp only [List.cons_append, List.nil_append, List.mem_cons, List.mem_append] at hi
          rcases hi with h | h | h
          · exact absurd h (by simp)
          · exact absurd h (by simp)
          · have := squash_step_events config.Options.Squash build env.imageComponent
              (Event.tagImages i) h
            exact absurd this (by simp [Event.isSquashCall])
        · intro img tag mh au h
          simp only [List.cons_append, List.nil_append, List.mem_cons, List.mem_append] at h
          rcases h with h | h | h
          · exact absurd h (by simp)
          · exact absurd h (by simp)
          · have := squash_step_events config.Options.Squash build env.imageComponent
              (Event.pushImage img tag mh au) h
            exact absurd this (by simp [Event.isSquashCall])
      | ok imageID =>
        by_cases hp : (config.Options.PushAs != "") = true
        · simp only [Backend.Build, hNT, hB, hsq, hp, if_true]
          constructor
          · intro i hi
            simp at hi
            rcases hi with h | h | h
            · exact absurd (squash_step_events config.Options.Squash build env.imageComponent
                (Event.tagImages i) h) (by simp [Event.isSquashCall])
            · exact h
            · exact absurd (pushImage_events_are_push env config.Options.PushAs
                config.Options.AuthConfigs (Event.tagImages i) h) (by simp [Event.isPushCall])
          · intro img tag mh au h
            simp at h
            rcases h with h | h
            · exact absurd (squash_step_events config.Options.Squash build env.imageComponent
                (Event.pushImage img tag mh au) h) (by simp [Event.isSquashCall])
            · obtain ⟨ref, h1, h2, _, _⟩ := pushImage_event_args env config.Options.PushAs
                config.Options.AuthConfigs img tag mh au h
              exact ⟨ref, h1, h2⟩
        · simp only [Backend.Build, hNT, hB, hsq, hp, Bool.false_eq_true, if_false]
          constructor
          · intro i hi
            simp at hi
            rcases hi with h | h
            · exact absurd (squash_step_events config.Options.Squash build env.imageComponent
                (Event.tagImages i) h) (by simp [Event.isSquashCall])
            · exact h
          · intro img tag mh au h
            simp at h
            exact absurd (squash_step_events config.Options.Squash build env.imageComponent
              (Event.pushImage img tag mh au) h) (by simp [Event.isSquashCall])

/-- Witness for the amended C6 at a concrete run. -/
theorem build_tag_gets_final_id_push_gets_ref_witness :
    "abc123" = (Backend.Build tagFailPushOkEnv pushConfig).imageID :=
  (build_tag_gets_final_id_push_gets_ref tagFailPushOkEnv pushConfig).1 "abc123" (by decide)

/-- The first recorded event of every Build run is the tagger construction on
the effective tag set. -/
lemma build_first_event (env : Env) (config : BuildConfig) :
    (Backend.Build env config).events.head? =
      some (Event.newTagger (effectiveTags config.Options)) := by
  cases hNT : NewTagger env.parseNormalizedNamed (effectiveTags config.Options) with
  | error err => simp [Backend.Build, hNT]
  | ok tagger =>
    cases hB : env.managerBuild config with
    | error err => simp [Backend.Build, hNT, hB]
    | ok build =>
      cases hsq : (if config.Options.Squash then squashBuild build env.imageComponent
                   else (Except.ok build.ImageID, [])).fst with
      | error err => simp [Backend.Build, hNT, hB, hsq]
      | ok imageID =>
        by_cases hp : (config.Options.PushAs != "") = true
        · simp [Backend.Build, hNT, hB, hsq, hp]
        · simp [Backend.Build, hNT, hB, hsq, hp]

/-- C7: the reference set handed to the tagger is the configured tags in their
original order with the push-as reference appended at the end exactly when it
is non-empty; nothing is deduplicated, and the push target is always among the
references the tagger will apply. -/
theorem build_tagger_gets_tags_plus_pushAs (env : Env) (config : BuildConfig) :
    ∃ refs, (Backend.Build env config).events.head? = some (Event.newTagger refs) ∧
      refs = config.Options.Tags ++
        (if config.Options.PushAs = "" then [] else [config.Options.PushAs]) ∧
      (config.Options.PushAs ≠ "" → config.Options.PushAs ∈ refs) := by
  refine ⟨effectiveTags config.Options, build_first_event env config, ?_, ?_⟩
  · unfold effectiveTags
    by_cases h : config.Options.PushAs = ""
    · simp [h]
    · simp [h]
  · intro h
    unfold effectiveTags
    simp [h]

/-- Witness for C7 at a concrete run with a configured push-as reference. -/
theorem build_tagger_gets_tags_plus_pushAs_witness :
    ∃ refs, (Backend.Build tagFailPushOkEnv pushConfig).events.head? =
        some (Event.newTagger refs) ∧
      refs = pushConfig.Options.Tags ++
        (if pushConfig.Options.PushAs = "" then [] else [pushConfig.Options.PushAs]) ∧
      (pushConfig.Options.PushAs ≠ "" → pushConfig.Options.PushAs ∈ refs) :=
  build_tagger_gets_tags_plus_pushAs tagFailPushOkEnv pushConfig

/-- When some name in the list fails to parse, tagger construction fails. -/
lemma NewTagger_error_of_invalid (parse : String → Except GoError NamedRef) :
    ∀ (names : List String) (r : String) (e : GoError), r ∈ names →
      parse r = Except.error e → ∃ e2, NewTagger parse names = Except.error e2 := by
  intro names
  induction names with
  | nil => intro r e hr _; exact absurd hr (List.not_mem_nil r)
  | cons a as ih =>
    intro r e hr he
    suffices hm : ∃ e2, parseAll parse (a :: as) = Except.error e2 by
      obtain ⟨e2, h2⟩ := hm
      refine ⟨e2, ?_⟩
      unfold NewTagger
      rw [h2]
    cases hpa : parse a with
    | error ea =>
      refine ⟨ea, ?_⟩
      unfold parseAll
      rw [hpa]
    | ok ref =>
      rcases List.mem_cons.mp hr with h | h
      · rw [h, hpa] at he
        exact Except.noConfusion he
      · obtain ⟨e2, h2⟩ := ih r e h he
        -- the inner recursion fails, and the constructor propagates that error
        obtain ⟨e3, h3⟩ : ∃ e3, parseAll parse as = Except.error e3 := by
          unfold NewTagger at h2
          cases hps : parseAll parse as with
          | error e3 => exact ⟨e3, rfl⟩
          | ok refs => rw [hps] at h2; exact Except.noConfusion h2
        refine ⟨e3, ?_⟩
        unfold parseAll
        rw [hpa, h3]

/-- C8: when the effective tag set contains a reference that fails to parse,
Build returns the empty identifier together with the tagger's construction
error, and the build engine is never invoked. -/
theorem build_invalid_ref_fails_before_engine
    (env : Env) (config : BuildConfig) (r : String) (e : GoError)
    (hr : r ∈ effectiveTags config.Options)
    (he : env.parseNormalizedNamed r = Except.error e) :
    (Backend.Build env config).imageID = "" ∧
    (∃ e2, NewTagger env.parseNormalizedNamed (effectiveTags config.Options) = Except.error e2 ∧
      (Backend.Build env config).err = some e2) ∧
    (∀ ev ∈ (Backend.Build env config).events, ev.isEngineCall = false) := by
  obtain ⟨e2, h2⟩ := NewTagger_error_of_invalid env.parseNormalizedNamed
    (effectiveTags config.Options) r e hr he
  simp only [Backend.Build, h2]
  refine ⟨trivial, ⟨e2, rfl, rfl⟩, ?_⟩
  intro ev hev
  simp only [List.mem_singleton] at hev
  subst hev
  rfl

/-- Reference parser fixture rejecting "bad ref" and accepting anything else. -/
def badParse (s : String) : Except GoError NamedRef :=
  if s = "bad ref" then Except.error (GoError.msg "invalid reference format")
  else Except.ok ⟨s⟩

/-- Environment fixture whose reference parser rejects "bad ref". -/
def badParseEnv : Env :=
  { tagFailPushOkEnv with parseNormalizedNamed := badParse }

/-- Configuration fixture containing an invalid tag reference. -/
def badRefConfig : BuildConfig := ⟨⟨["bad ref"], "", false, []⟩⟩

/-- Witness for C8 at a concrete run with an invalid tag reference. -/
theorem build_invalid_ref_fails_before_engine_witness :
    (Backend.Build badParseEnv badRefConfig).imageID = "" ∧
    (∃ e2, NewTagger badParseEnv.parseNormalizedNamed (effectiveTags badRefConfig.Options) =
        Except.error e2 ∧
      (Backend.Build badParseEnv badRefConfig).err = some e2) ∧
    (∀ ev ∈ (Backend.Build badParseEnv badRefConfig).events, ev.isEngineCall = false) :=
  build_invalid_ref_fails_before_engine badParseEnv badRefConfig "bad ref"
    (GoError.msg "invalid reference format") (by decide) rfl

/-- C9: once the push-as reference parses and the repository resolves, the push
helper delegates to the image component's push operation with the full
reference string, an empty explicit tag, an empty extra-headers map and the
credential selected for the repository's index, returns the underlying push
outcome unwrapped, and credential selection yields the zero-value credential
rather than failing when the per-registry map has no matching entry. -/
theorem pushImage_delegation
    (env : Env) (pushAs : String) (authConfigs : List (String × AuthConfig))
    (ref : NamedRef) (repoInfo : RepoInfo)
    (hp : env.parseNormalizedNamed pushAs = Except.ok ref)
    (hr : env.registryService.ResolveRepository ref = Except.ok repoInfo) :
    Backend.pushImage env pushAs authConfigs =
      (env.imageComponent.PushImage ref.str "" [] (ResolveAuthConfig authConfigs repoInfo.Index),
       [Event.pushImage ref.str "" [] (ResolveAuthConfig authConfigs repoInfo.Index)]) ∧
    (authConfigs.lookup repoInfo.Index = none →
      ResolveAuthConfig authConfigs repoInfo.Index = ⟨"", ""⟩) := by
  constructor
  · simp only [Backend.pushImage, hp, hr]
  · intro h
    simp [ResolveAuthConfig, h]

/-- Witness for C9 at a concrete push with an empty credential map. -/
theorem pushImage_delegation_witness :
    Backend.pushImage tagFailPushOkEnv "p" [] =
      (tagFailPushOkEnv.imageComponent.PushImage "p" "" [] (ResolveAuthConfig [] "idx"),
       [Event.pushImage "p" "" [] (ResolveAuthConfig [] "idx")]) ∧
    (List.lookup "idx" ([] : List (String × AuthConfig)) = none →
      ResolveAuthConfig [] "idx" = ⟨"", ""⟩) :=
  pushImage_delegation tagFailPushOkEnv "p" [] ⟨"p"⟩ ⟨"idx"⟩ rfl rfl

/-- C10: Build leaves the supplied configuration unchanged; in particular the
configured tag list is the same at return as at entry, even when the push-as
reference was appended to the effective tag set. -/
theorem build_config_unchanged (env : Env) (config : BuildConfig) :
    (Backend.Build env config).finalConfig = config ∧
    (Backend.Build env config).finalConfig.Options.Tags = config.Options.Tags := by
  suffices h : (Backend.Build env config).finalConfig = config by
    exact ⟨h, by rw [h]⟩
  cases hNT : NewTagger env.parseNormalizedNamed (effectiveTags config.Options) with
  | error err => simp [Backend.Build, hNT]
  | ok tagger =>
    cases hB : env.managerBuild config with
    | error err => simp [Backend.Build, hNT, hB]
    | ok build =>
      cases hsq : (if config.Options.Squash then squashBuild build env.imageComponent
                   else (Except.ok build.ImageID, [])).fst with
      | error err => simp [Backend.Build, hNT, hB, hsq]
      | ok imageID =>
        by_cases hp : (config.Options.PushAs != "") = true
        · simp [Backend.Build, hNT, hB, hsq, hp]
        · simp [Backend.Build, hNT, hB, hsq, hp]

end DockerBuild
